import Mathlib

set_option maxRecDepth 2000

/-!
Verification of the portfolio ledger and position-derivation engine of the
`portefeuille` repository.

The TypeScript source keeps, per portfolio, a transaction history, a list of
open positions, a list of closed positions and a cash balance.  We embed the
relevant handlers (`handleAddTransaction`, `handlePurchase`, `handleSale`,
`handleDividend`, `handleImportTransactions`, `handleDeleteTransaction`,
`handleUpdateCash`) as pure state transitions over a `PState` record.

Modelling choices:
* JS numbers are modelled as exact rationals (`ℚ`);
* ISO date strings are modelled by their epoch value (`ℤ`), since the source
  only ever compares dates through `new Date(d).getTime()`;
* `crypto.randomUUID()` identifiers are modelled as `Nat` parameters;
* `x || 1` on a number is modelled by `orOne` (0 is falsy in JS);
* JS `Array.prototype.sort` with the comparator `(a, b) => dateOf a - dateOf b`
  is a stable sort by date, modelled by the stable insertion sort `sortByDate`;
* inert display metadata (currency, sector, stopLoss, manualCurrentPrice,
  portfolioCode) is omitted; no claim refers to it.
-/

namespace Portefeuille

/-- Transaction kinds of the source: buy, sell, dividend, cash-in, cash-out. -/
inductive TxType where
  | achat
  | vente
  | dividende
  | depot
  | retrait
deriving DecidableEq, Repr

/-- A transaction record (fields of the source `Transaction` interface that
participate in the ledger logic; `tax?` defaults to 0 as in the JS
`(t.tax || 0)` reads). -/
structure Transaction where
  id : Nat
  date : ℤ
  code : String
  name : String
  type : TxType
  quantity : ℚ
  unitPrice : ℚ
  fees : ℚ
  tff : ℚ
  conversionRate : ℚ
  tax : ℚ := 0
deriving DecidableEq, Repr

/-- An open position row of the positions store. -/
structure Position where
  code : String
  name : String
  quantity : ℚ
  totalCost : ℚ
  pru : ℚ
deriving DecidableEq, Repr

/-- A closed-position row. -/
structure ClosedPosition where
  code : String
  name : String
  purchaseDate : ℤ
  saleDate : ℤ
  quantity : ℚ
  pru : ℚ
  averageSalePrice : ℚ
  totalPurchase : ℚ
  totalSale : ℚ
  gainLoss : ℚ
  gainLossPercent : ℚ
  dividends : ℚ
deriving DecidableEq, Repr

/-- The stored state of one portfolio: its transaction history, its open
positions, its closed positions, and the `cash` field of the portfolios
table row. -/
structure PState where
  transactions : List Transaction
  positions : List Position
  closedPositions : List ClosedPosition
  cash : ℚ
deriving DecidableEq, Repr

/-- The empty portfolio state. -/
def emptyState : PState := ⟨[], [], [], 0⟩

/-- JS `x || 1` on a number: 0 is falsy and falls back to 1. -/
def orOne (x : ℚ) : ℚ := if x = 0 then 1 else x

/-- Code normalisation used by the purchase and import look-ups:
`(code || "").trim().toUpperCase()`. -/
def normCode (s : String) : String := s.trim.toUpper

/-- The comparator of the source's date sorts:
`(a, b) => new Date(a.date).getTime() - new Date(b.date).getTime()`. -/
def dateLe (a b : Transaction) : Prop := a.date ≤ b.date

instance : DecidableRel dateLe := fun a b => Int.decLe a.date b.date

instance : IsTotal Transaction dateLe := ⟨fun a b => le_total a.date b.date⟩

instance : IsTrans Transaction dateLe := ⟨fun _ _ _ h h' => le_trans h h'⟩

/-- Stable sort by ascending date: the model of the JS stable
`sort((a, b) => new Date(a.date).getTime() - new Date(b.date).getTime())`. -/
def sortByDate (l : List Transaction) : List Transaction :=
  List.insertionSort dateLe l

/-- Store upsert keyed by the exact `code` string (the positions table has
`onConflict: portfolio_id,code`): replace the rows with that exact code, or
append when none exists. -/
def upsertPosition (ps : List Position) (p : Position) : List Position :=
  if ps.any (fun q => q.code == p.code) then
    ps.map (fun q => if q.code == p.code then p else q)
  else
    ps ++ [p]

/-- Store delete keyed by the exact `code` string. -/
def dbDeletePosition (ps : List Position) (code : String) : List Position :=
  ps.filter (fun p => p.code != code)

/-- `handlePurchase`: incremental application of a buy.  The look-up is by
normalised code; the written row carries the raw `tx.code`; fees and tff are
added without currency reconversion; cash decreases by the full cost. -/
def handlePurchase (tx : Transaction) (s : PState) : PState :=
  let txCode := normCode tx.code
  let convertedUnitPrice := tx.unitPrice * orOne tx.conversionRate
  let totalCost := tx.quantity * convertedUnitPrice + tx.fees + tx.tff
  let cash' := s.cash - totalCost
  match s.positions.find? (fun p => normCode p.code == txCode) with
  | some existing =>
      let newTotalCost := existing.totalCost + totalCost
      let newQuantity := existing.quantity + tx.quantity
      { s with
          cash := cash',
          positions := upsertPosition s.positions
            ⟨tx.code, tx.name, newQuantity, newTotalCost,
             newTotalCost / newQuantity⟩ }
  | none =>
      { s with
          cash := cash',
          positions := upsertPosition s.positions
            ⟨tx.code, tx.name, tx.quantity, totalCost,
             totalCost / tx.quantity⟩ }

/-- The `purchaseDate` computed by a sale: the head of the date-sorted list of
buys of the sold code in the full history, defaulting to the sale date. -/
def salePurchaseDate (txs : List Transaction) (code : String) (saleDate : ℤ) : ℤ :=
  match (sortByDate (txs.filter (fun t => t.code == code && t.type == TxType.achat))).head? with
  | some pt => pt.date
  | none => saleDate

/-- Net dividends for `code` over the inclusive window, summed over the
given history: `(unitPrice * quantity * conversionRate) - (tax || 0)`. -/
def windowDividends (txs : List Transaction) (code : String)
    (purchaseDate saleDate : ℤ) : ℚ :=
  (txs.filter (fun t => t.code == code && t.type == TxType.dividende &&
      decide (purchaseDate ≤ t.date) && decide (t.date ≤ saleDate))).foldl
    (fun sum t => sum + (t.unitPrice * t.quantity * t.conversionRate - t.tax)) 0

/-- The total cost charged by the incremental purchase path:
`quantity * (unitPrice * (conversionRate || 1)) + (fees || 0) + (tff || 0)`. -/
def purchaseCost (tx : Transaction) : ℚ :=
  tx.quantity * (tx.unitPrice * orOne tx.conversionRate) + tx.fees + tx.tff

/-- The proceeds credited by the incremental sale path:
`quantity * (unitPrice * (conversionRate || 1)) - (fees || 0) - (tff || 0)`. -/
def saleProceeds (tx : Transaction) : ℚ :=
  tx.quantity * (tx.unitPrice * orOne tx.conversionRate) - tx.fees - tx.tff

/-- The `purchaseDate` computed by an import sell: as `salePurchaseDate` but
with the normalised-code comparison the import loop uses. -/
def importPurchaseDate (txs : List Transaction) (code : String) (saleDate : ℤ) : ℤ :=
  match (sortByDate (txs.filter
      (fun t => normCode t.code == normCode code && t.type == TxType.achat))).head? with
  | some pt => pt.date
  | none => saleDate

/-- Sale proceeds as the spec words them: fees and tff subtracted without
reconversion, the conversion rate taken raw. -/
def specSaleProceeds (t : Transaction) : ℚ :=
  t.quantity * (t.unitPrice * t.conversionRate) - t.fees - t.tff

/-- `handleSale`: incremental application of a sell.  The position look-up is
by the EXACT `tx.code` string; a missing position or an insufficient quantity
leaves the state unchanged (warning / alert in the source). -/
def handleSale (tx : Transaction) (newTransactions : List Transaction)
    (s : PState) : PState :=
  match s.positions.find? (fun p => p.code == tx.code) with
  | none => s
  | some existing =>
    if existing.quantity < tx.quantity then s
    else
      let convertedUnitPrice := tx.unitPrice * orOne tx.conversionRate
      let totalSale := tx.quantity * convertedUnitPrice - tx.fees - tx.tff
      let totalPurchase := tx.quantity * existing.pru
      let gainLoss := totalSale - totalPurchase
      let purchaseDate := salePurchaseDate newTransactions tx.code tx.date
      let dividends := windowDividends newTransactions tx.code purchaseDate tx.date
      let cp : ClosedPosition :=
        ⟨tx.code, tx.name, purchaseDate, tx.date, tx.quantity, existing.pru,
         totalSale / tx.quantity, totalPurchase, totalSale, gainLoss,
         gainLoss / totalPurchase * 100, dividends⟩
      let newQuantity := existing.quantity - tx.quantity
      let positions' :=
        if newQuantity = 0 then dbDeletePosition s.positions tx.code
        else upsertPosition s.positions
          ⟨tx.code, existing.name, newQuantity,
           existing.totalCost - totalPurchase, existing.pru⟩
      { s with
          cash := s.cash + totalSale,
          closedPositions := s.closedPositions ++ [cp],
          positions := positions' }

/-- The total cost charged for a buy by the delete-transaction replay:
fees and tff ARE multiplied by the raw conversion rate there. -/
def replayBuyCost (t : Transaction) : ℚ :=
  t.quantity * (t.unitPrice * t.conversionRate) +
    t.fees * t.conversionRate + t.tff * t.conversionRate

/-- The proceeds credited for a sell by the delete-transaction replay:
fees and tff ARE multiplied by the raw conversion rate there. -/
def replaySaleProceeds (t : Transaction) : ℚ :=
  t.quantity * (t.unitPrice * t.conversionRate) -
    t.fees * t.conversionRate - t.tff * t.conversionRate

/-- `handleDividend`: cash increases by the net converted dividend. -/
def handleDividend (tx : Transaction) (s : PState) : PState :=
  { s with cash := s.cash + (tx.unitPrice * tx.quantity * orOne tx.conversionRate - tx.tax) }

/-- `handleAddTransaction`: persist the transaction first (`dbAddTransaction`),
then dispatch on its type. -/
def handleAddTransaction (tx : Transaction) (s : PState) : PState :=
  let s1 : PState := { s with transactions := s.transactions ++ [tx] }
  match tx.type with
  | TxType.achat => handlePurchase tx s1
  | TxType.vente => handleSale tx s1.transactions s1
  | TxType.dividende => handleDividend tx s1
  | _ => s1

/-- Apply a list of transactions through the incremental add path. -/
def applyTransactions (txs : List Transaction) (s : PState) : PState :=
  txs.foldl (fun st t => handleAddTransaction t st) s

/-- Accumulator of the delete-transaction replay loop: rebuilt positions and
closed positions. -/
structure ReplayAcc where
  positions : List Position
  closed : List ClosedPosition
deriving DecidableEq, Repr

/-- Replace the first element satisfying the predicate (the source finds the
object in the array and mutates it in place). -/
def replaceFirst (p : α → Bool) (new : α) : List α → List α
  | [] => []
  | x :: xs => if p x then new :: xs else x :: replaceFirst p new xs

/-- Remove the first element satisfying the predicate (`splice(indexOf, 1)`). -/
def removeFirst (p : α → Bool) : List α → List α
  | [] => []
  | x :: xs => if p x then xs else x :: removeFirst p xs

/-- One step of the delete-transaction replay.  Buys reconvert `fees` and
`tff` by the raw `conversionRate`; both branches look positions up by the
EXACT code string; a sell without (sufficient) inventory is skipped. -/
def replayStep (all : List Transaction) (acc : ReplayAcc)
    (t : Transaction) : ReplayAcc :=
  match t.type with
  | TxType.achat =>
      let convertedUnitPrice := t.unitPrice * t.conversionRate
      let totalCost := t.quantity * convertedUnitPrice +
        t.fees * t.conversionRate + t.tff * t.conversionRate
      match acc.positions.find? (fun p => p.code == t.code) with
      | some existing =>
          let newTotalCost := existing.totalCost + totalCost
          let newQuantity := existing.quantity + t.quantity
          let updated : Position :=
            { existing with
                quantity := newQuantity,
                totalCost := newTotalCost,
                pru := newTotalCost / newQuantity }
          { acc with
              positions :=
                replaceFirst (fun p => p.code == t.code) updated acc.positions }
      | none =>
          { acc with
              positions := acc.positions ++
                [⟨t.code, t.name, t.quantity, totalCost, totalCost / t.quantity⟩] }
  | TxType.vente =>
      match acc.positions.find? (fun p => p.code == t.code) with
      | some existing =>
          if t.quantity ≤ existing.quantity then
            let convertedUnitPrice := t.unitPrice * t.conversionRate
            let totalSale := t.quantity * convertedUnitPrice -
              t.fees * t.conversionRate - t.tff * t.conversionRate
            let totalPurchase := t.quantity * existing.pru
            let gainLoss := totalSale - totalPurchase
            let purchaseDate := salePurchaseDate all t.code t.date
            let dividends := windowDividends all t.code purchaseDate t.date
            let cp : ClosedPosition :=
              ⟨t.code, t.name, purchaseDate, t.date, t.quantity, existing.pru,
               totalSale / t.quantity, totalPurchase, totalSale, gainLoss,
               gainLoss / totalPurchase * 100, dividends⟩
            let newQuantity := existing.quantity - t.quantity
            let reduced : Position :=
              { existing with quantity := newQuantity,
                              totalCost := existing.totalCost - totalPurchase }
            let positions' :=
              if newQuantity = 0 then
                removeFirst (fun p => p.code == t.code) acc.positions
              else replaceFirst (fun p => p.code == t.code) reduced acc.positions
            { positions := positions', closed := acc.closed ++ [cp] }
          else acc
      | none => acc
  | _ => acc

/-- `handleDeleteTransaction`: drop the transaction with the given id, then
rebuild positions and closed positions by folding over the remaining buys and
sells sorted by date only (the stable sort keeps stored order on ties), and
fully replace the stored derived state.  Cash is not touched. -/
def handleDeleteTransaction (id : Nat) (s : PState) : PState :=
  let updated := s.transactions.filter (fun t => t.id != id)
  let acc := (sortByDate (updated.filter
      (fun t => t.type == TxType.achat || t.type == TxType.vente))).foldl
    (replayStep updated) ⟨[], []⟩
  { transactions := updated, positions := acc.positions,
    closedPositions := acc.closed, cash := s.cash }

/-- Accumulator of the import loop: the growing full transaction list and the
working position / closed-position arrays. -/
structure ImportAcc where
  allTx : List Transaction
  positions : List Position
  closed : List ClosedPosition
deriving DecidableEq, Repr

/-- One step of `handleImportTransactions`: the transaction is appended to
`allTx` first; buys and sells look positions up by NORMALISED code; buy fees
are NOT reconverted; a sell without (sufficient) inventory is skipped; every
emitted closed position has `dividends: 0`. -/
def importStep (acc : ImportAcc) (tx : Transaction) : ImportAcc :=
  let allTx := acc.allTx ++ [tx]
  let txCode := normCode tx.code
  let convertedUnitPrice := tx.unitPrice * orOne tx.conversionRate
  match tx.type with
  | TxType.achat =>
      let totalCost := tx.quantity * convertedUnitPrice + tx.fees + tx.tff
      match acc.positions.find? (fun p => normCode p.code == txCode) with
      | some pos =>
          let newTotalCost := pos.totalCost + totalCost
          let newQuantity := pos.quantity + tx.quantity
          let updated : Position :=
            { pos with
                quantity := newQuantity,
                totalCost := newTotalCost,
                pru := newTotalCost / newQuantity }
          { acc with
              allTx := allTx,
              positions := replaceFirst (fun p => normCode p.code == txCode)
                updated acc.positions }
      | none =>
          { acc with
              allTx := allTx,
              positions := acc.positions ++
                [⟨tx.code, tx.name, tx.quantity, totalCost, totalCost / tx.quantity⟩] }
  | TxType.vente =>
      match acc.positions.find? (fun p => normCode p.code == txCode) with
      | none => { acc with allTx := allTx }
      | some pos =>
          if pos.quantity < tx.quantity then { acc with allTx := allTx }
          else
            let totalSale := tx.quantity * convertedUnitPrice - tx.fees - tx.tff
            let totalPurchase := tx.quantity * pos.pru
            let gainLoss := totalSale - totalPurchase
            let purchaseDate :=
              match (sortByDate (allTx.filter
                  (fun t => normCode t.code == txCode && t.type == TxType.achat))).head? with
              | some pt => pt.date
              | none => tx.date
            let cp : ClosedPosition :=
              ⟨tx.code, tx.name, purchaseDate, tx.date, tx.quantity, pos.pru,
               totalSale / tx.quantity, totalPurchase, totalSale, gainLoss,
               gainLoss / totalPurchase * 100, 0⟩
            let newQuantity := pos.quantity - tx.quantity
            let reduced : Position :=
              { pos with quantity := newQuantity,
                         totalCost := pos.totalCost - totalPurchase }
            let positions' :=
              if newQuantity = 0 then
                removeFirst (fun p => normCode p.code == txCode) acc.positions
              else replaceFirst (fun p => normCode p.code == txCode) reduced acc.positions
            { allTx := allTx, positions := positions', closed := acc.closed ++ [cp] }
  | _ => { acc with allTx := allTx }

/-- `handleImportTransactions`: fold the imported batch, in its given order,
on top of the existing stored transactions, positions and closed positions,
then fully replace those three tables.  The portfolios table (hence `cash`)
is never written. -/
def handleImportTransactions (txs : List Transaction) (s : PState) : PState :=
  let acc := txs.foldl importStep ⟨s.transactions, s.positions, s.closedPositions⟩
  { transactions := acc.allTx, positions := acc.positions,
    closedPositions := acc.closed, cash := s.cash }

/-- The synthetic transaction recorded by a cash deposit / withdrawal:
`quantity: 1`, `unitPrice: amount`. -/
def mkCashTx (newId : Nat) (amount : ℚ) (isDeposit : Bool) (date : ℤ) : Transaction :=
  ⟨newId, date, "CASH",
   if isDeposit then "Dépôt de liquidités" else "Retrait de liquidités",
   if isDeposit then TxType.depot else TxType.retrait,
   1, amount, 0, 0, 1, 0⟩

/-- `handleUpdateCash`: refuse any update that would drive cash negative;
otherwise write the new balance and record one synthetic transaction. -/
def handleUpdateCash (newId : Nat) (amount : ℚ) (isDeposit : Bool) (date : ℤ)
    (s : PState) : PState :=
  let newCash := if isDeposit then s.cash + amount else s.cash - amount
  if newCash < 0 then s
  else
    { s with
        cash := newCash,
        transactions := s.transactions ++ [mkCashTx newId amount isDeposit date] }

/-! Definitions written from the specification text, used to compare the
code's behaviour with the spec's described behaviour (refinement claims). -/

/-- Sort rank used by the spec's tie-break: buys before sells on equal dates. -/
def saleRank : TxType → Nat
  | TxType.vente => 1
  | _ => 0

/-- Insert into a list sorted by the spec's order: date ascending, ties broken
buy-before-sell. -/
def insertBuyFirst (t : Transaction) : List Transaction → List Transaction
  | [] => [t]
  | u :: us =>
      if t.date < u.date ∨ (t.date = u.date ∧ saleRank t.type ≤ saleRank u.type) then
        t :: u :: us
      else u :: insertBuyFirst t us

/-- The spec's sort: date ascending, ties broken buy-before-sell. -/
def sortBuyFirst (l : List Transaction) : List Transaction :=
  l.foldr insertBuyFirst []

/-- The delete-replay the claim describes: identical to the code's replay fold
but over the list sorted with the spec's buy-before-sell tie-break. -/
def deleteReplayBuyFirst (id : Nat) (s : PState) : PState :=
  let updated := s.transactions.filter (fun t => t.id != id)
  let acc := (sortBuyFirst (updated.filter
      (fun t => t.type == TxType.achat || t.type == TxType.vente))).foldl
    (replayStep updated) ⟨[], []⟩
  { transactions := updated, positions := acc.positions,
    closedPositions := acc.closed, cash := s.cash }

/-- One step of the replay engine as the SPEC describes it: normalised-code
look-up, buy cost with fees and tff taken as already in portfolio currency,
sale proceeds likewise, dividends computed over the holding window. -/
def specReplayStep (all : List Transaction) (acc : ReplayAcc)
    (t : Transaction) : ReplayAcc :=
  match t.type with
  | TxType.achat =>
      let totalCost := t.quantity * (t.unitPrice * t.conversionRate) + t.fees + t.tff
      match acc.positions.find? (fun p => normCode p.code == normCode t.code) with
      | some existing =>
          let newTotalCost := existing.totalCost + totalCost
          let newQuantity := existing.quantity + t.quantity
          let updated : Position :=
            { existing with
                quantity := newQuantity,
                totalCost := newTotalCost,
                pru := newTotalCost / newQuantity }
          { acc with
              positions := replaceFirst
                (fun p => normCode p.code == normCode t.code) updated acc.positions }
      | none =>
          { acc with
              positions := acc.positions ++
                [⟨t.code, t.name, t.quantity, totalCost, totalCost / t.quantity⟩] }
  | TxType.vente =>
      match acc.positions.find? (fun p => normCode p.code == normCode t.code) with
      | some existing =>
          if t.quantity ≤ existing.quantity then
            let totalSale := t.quantity * (t.unitPrice * t.conversionRate) - t.fees - t.tff
            let totalPurchase := t.quantity * existing.pru
            let gainLoss := totalSale - totalPurchase
            let purchaseDate := salePurchaseDate all t.code t.date
            let dividends := windowDividends all t.code purchaseDate t.date
            let cp : ClosedPosition :=
              ⟨t.code, t.name, purchaseDate, t.date, t.quantity, existing.pru,
               totalSale / t.quantity, totalPurchase, totalSale, gainLoss,
               gainLoss / totalPurchase * 100, dividends⟩
            let newQuantity := existing.quantity - t.quantity
            let reduced : Position :=
              { existing with
                  quantity := newQuantity,
                  totalCost := existing.totalCost - totalPurchase }
            let positions' :=
              if newQuantity = 0 then
                removeFirst (fun p => normCode p.code == normCode t.code) acc.positions
              else replaceFirst (fun p => normCode p.code == normCode t.code)
                reduced acc.positions
            { positions := positions', closed := acc.closed ++ [cp] }
          else acc
      | none => acc
  | _ => acc

/-- The import behaviour the claim describes, following the spec's words:
merge the batch with the existing history, sort the union by date with buys
before sells on ties, and replay the union from an empty position set;
closed-position dividends are computed over the holding period as in replay. -/
def specImportReplay (txs : List Transaction) (s : PState) : PState :=
  let union := s.transactions ++ txs
  let acc := (sortBuyFirst (union.filter
      (fun t => t.type == TxType.achat || t.type == TxType.vente))).foldl
    (specReplayStep union) ⟨[], []⟩
  { transactions := union, positions := acc.positions,
    closedPositions := acc.closed, cash := s.cash }

/-- Cost of a buy as the claims state it:
quantity * (unitPrice * conversionRate) + fees + tff. -/
def buyCostSpec (t : Transaction) : ℚ :=
  t.quantity * (t.unitPrice * t.conversionRate) + t.fees + t.tff

/-- Invariant carried through a buys-only fold: every stored position keeps a
normalised code, satisfies the weighted-average equation, and accumulates
exactly the buy costs of the processed transactions bearing its code; codes
without a position have no processed buys. -/
def BuysInvariant (done : List Transaction) (ps : List Position) : Prop :=
  (∀ p ∈ ps, normCode p.code = p.code) ∧
  (∀ p ∈ ps, p.pru = p.totalCost / p.quantity) ∧
  (∀ p ∈ ps, p.totalCost =
    ((done.filter (fun t => t.code == p.code)).map buyCostSpec).sum) ∧
  (∀ c : String, (∀ p ∈ ps, p.code ≠ c) →
    done.filter (fun t => t.code == c) = [])

/-! Concrete inputs used by the per-claim witnesses and counterexamples. -/

/-- Buy 10 units at 100 with 5 fees (scenario of claim C2). -/
def c2buy1 : Transaction := ⟨1, 1, "AAPL", "Apple", TxType.achat, 10, 100, 5, 0, 1, 0⟩

/-- Buy 10 units at 110 with 5 fees (scenario of claim C2). -/
def c2buy2 : Transaction := ⟨2, 2, "AAPL", "Apple", TxType.achat, 10, 110, 5, 0, 1, 0⟩

/-- Sell 15 units at 120 with 3 fees (scenario of claim C2). -/
def c2sell : Transaction := ⟨3, 3, "AAPL", "Apple", TxType.vente, 15, 120, 3, 0, 1, 0⟩

/-- Same-day sell stored before its buy (claim C3). -/
def c3sell : Transaction := ⟨1, 5, "ACME", "Acme", TxType.vente, 1, 10, 0, 0, 1, 0⟩

/-- Same-day buy stored after the sell (claim C3). -/
def c3buy : Transaction := ⟨2, 5, "ACME", "Acme", TxType.achat, 1, 10, 0, 0, 1, 0⟩

/-- History holding the same-day pair, sell first (claim C3). -/
def c3state : PState := ⟨[c3sell, c3buy], [], [], 0⟩

/-- A buy with conversionRate 2 and fees 1 (claim C4). -/
def c4buy : Transaction := ⟨1, 1, "ACME", "Acme", TxType.achat, 1, 10, 1, 0, 2, 0⟩

/-- A buy with conversionRate 1 (witness of claim C4). -/
def c4buyRate1 : Transaction := ⟨1, 1, "ACME", "Acme", TxType.achat, 2, 10, 1, 1, 1, 0⟩

/-- Imported sell dated after the imported buy but listed first (claim C5). -/
def c5sell : Transaction := ⟨1, 2, "ACME", "Acme", TxType.vente, 1, 10, 0, 0, 1, 0⟩

/-- Imported buy dated before the imported sell but listed second (claim C5). -/
def c5buy : Transaction := ⟨2, 1, "ACME", "Acme", TxType.achat, 1, 10, 0, 0, 1, 0⟩

/-- An open position of one unit (claim C6). -/
def c6pos : Position := ⟨"ACME", "Acme", 1, 10, 10⟩

/-- A sell of two units against a one-unit position (claim C6). -/
def c6sell : Transaction := ⟨7, 2, "ACME", "Acme", TxType.vente, 2, 10, 0, 0, 1, 0⟩

/-- State holding one unit of ACME and 50 cash (claim C6). -/
def c6state : PState := ⟨[], [c6pos], [], 50⟩

/-- Buy recorded under the upper-case code (claim C7). -/
def c7buy1 : Transaction := ⟨1, 1, "AAPL", "Apple", TxType.achat, 10, 10, 0, 0, 1, 0⟩

/-- Buy recorded under a lower-case code with trailing blank (claim C7). -/
def c7buy2 : Transaction := ⟨2, 2, "aapl ", "Apple", TxType.achat, 5, 10, 0, 0, 1, 0⟩

/-- Sell referencing the lower-case code (claim C7). -/
def c7sell : Transaction := ⟨3, 3, "aapl", "Apple", TxType.vente, 5, 12, 0, 0, 1, 0⟩

/-- First buy of the rebuy scenario (claim C8). -/
def c8buy1 : Transaction := ⟨1, 1, "ACME", "Acme", TxType.achat, 1, 10, 0, 0, 1, 0⟩

/-- Full-close sell of the rebuy scenario (claim C8). -/
def c8sell1 : Transaction := ⟨2, 2, "ACME", "Acme", TxType.vente, 1, 11, 0, 0, 1, 0⟩

/-- Re-buy after the full close (claim C8). -/
def c8buy2 : Transaction := ⟨3, 3, "ACME", "Acme", TxType.achat, 1, 20, 0, 0, 1, 0⟩

/-- Final sell of the rebuy scenario (claim C8). -/
def c8sell2 : Transaction := ⟨4, 4, "ACME", "Acme", TxType.vente, 1, 21, 0, 0, 1, 0⟩

/-- State reached after buy, full sell, re-buy (claim C8 witness). -/
def c8state : PState := applyTransactions [c8buy1, c8sell1, c8buy2] emptyState

/-- Buys used by the witness of claim C1. -/
def c1buy1 : Transaction := ⟨1, 1, "ACME", "Acme", TxType.achat, 2, 10, 1, 1, 2, 0⟩

/-- Second buy used by the witness of claim C1. -/
def c1buy2 : Transaction := ⟨2, 2, "ACME", "Acme", TxType.achat, 3, 12, 1, 0, 1, 0⟩

/-! Theorems.  Shared helper lemmas come first, then one theorem per claim
(plus its witness or counterexample where required). -/

/-- Unfolding lemma: adding a buy persists the record then runs the
purchase handler. -/
theorem handleAddTransaction_achat (tx : Transaction) (s : PState)
    (hty : tx.type = TxType.achat) :
    handleAddTransaction tx s
      = handlePurchase tx { s with transactions := s.transactions ++ [tx] } := by
  unfold handleAddTransaction
  rw [hty]

/-- Unfolding lemma: adding a sell persists the record then runs the sale
handler against the extended history. -/
theorem handleAddTransaction_vente (tx : Transaction) (s : PState)
    (hty : tx.type = TxType.vente) :
    handleAddTransaction tx s
      = handleSale tx (s.transactions ++ [tx])
          { s with transactions := s.transactions ++ [tx] } := by
  unfold handleAddTransaction
  rw [hty]

/-- A sell whose quantity exceeds the found position's quantity leaves the
state it runs against unchanged. -/
theorem handleSale_oversell (tx : Transaction) (txs : List Transaction)
    (s : PState) (ex : Position)
    (hfind : s.positions.find? (fun p => p.code == tx.code) = some ex)
    (hlt : ex.quantity < tx.quantity) :
    handleSale tx txs s = s := by
  unfold handleSale
  rw [hfind]
  dsimp only
  rw [if_pos hlt]

/-- Characterisation of a purchase when no position matches the normalised
code: the cost opens a new row. -/
theorem handlePurchase_none (tx : Transaction) (s : PState)
    (hfind : s.positions.find? (fun p => normCode p.code == normCode tx.code) = none) :
    handlePurchase tx s =
      { s with
          cash := s.cash - purchaseCost tx,
          positions := upsertPosition s.positions
            ⟨tx.code, tx.name, tx.quantity, purchaseCost tx,
             purchaseCost tx / tx.quantity⟩ } := by
  unfold handlePurchase
  dsimp only
  rw [hfind]
  rfl

/-- Characterisation of a purchase merging into the first position whose
normalised code matches: weighted-average update written under the raw
transaction code. -/
theorem handlePurchase_some (tx : Transaction) (s : PState) (ex : Position)
    (hfind : s.positions.find? (fun p => normCode p.code == normCode tx.code)
      = some ex) :
    handlePurchase tx s =
      { s with
          cash := s.cash - purchaseCost tx,
          positions := upsertPosition s.positions
            ⟨tx.code, tx.name, ex.quantity + tx.quantity,
             ex.totalCost + purchaseCost tx,
             (ex.totalCost + purchaseCost tx) / (ex.quantity + tx.quantity)⟩ } := by
  unfold handlePurchase
  dsimp only
  rw [hfind]
  rfl

/-- A sell whose exact code matches no position leaves the state unchanged. -/
theorem handleSale_none (tx : Transaction) (txs : List Transaction) (s : PState)
    (hfind : s.positions.find? (fun p => p.code == tx.code) = none) :
    handleSale tx txs s = s := by
  unfold handleSale
  rw [hfind]

/-- Characterisation of a sell with sufficient inventory: proceeds credited,
one closed position appended, the position removed or reduced at constant
pru. -/
theorem handleSale_ok (tx : Transaction) (txs : List Transaction) (s : PState)
    (ex : Position)
    (hfind : s.positions.find? (fun p => p.code == tx.code) = some ex)
    (hq : ¬ ex.quantity < tx.quantity) :
    handleSale tx txs s =
      { s with
          cash := s.cash + saleProceeds tx,
          closedPositions := s.closedPositions ++
            [⟨tx.code, tx.name, salePurchaseDate txs tx.code tx.date, tx.date,
              tx.quantity, ex.pru, saleProceeds tx / tx.quantity,
              tx.quantity * ex.pru, saleProceeds tx,
              saleProceeds tx - tx.quantity * ex.pru,
              (saleProceeds tx - tx.quantity * ex.pru) / (tx.quantity * ex.pru) * 100,
              windowDividends txs tx.code (salePurchaseDate txs tx.code tx.date)
                tx.date⟩],
          positions :=
            if ex.quantity - tx.quantity = 0 then
              dbDeletePosition s.positions tx.code
            else upsertPosition s.positions
              ⟨tx.code, ex.name, ex.quantity - tx.quantity,
               ex.totalCost - tx.quantity * ex.pru, ex.pru⟩ } := by
  unfold handleSale
  rw [hfind]
  dsimp only
  rw [if_neg hq]
  rfl

/-- Characterisation of a replay buy step when no position matches the exact
code: a new row with the replay's reconverted cost. -/
theorem replayStep_achat_none (all : List Transaction) (acc : ReplayAcc)
    (t : Transaction) (hty : t.type = TxType.achat)
    (hfind : acc.positions.find? (fun p => p.code == t.code) = none) :
    replayStep all acc t =
      { acc with positions := acc.positions ++
          [⟨t.code, t.name, t.quantity, replayBuyCost t,
            replayBuyCost t / t.quantity⟩] } := by
  unfold replayStep
  rw [hty]
  dsimp only
  rw [hfind]
  rfl

/-- Characterisation of a replay buy step merging into the first position
with the same exact code. -/
theorem replayStep_achat_some (all : List Transaction) (acc : ReplayAcc)
    (t : Transaction) (ex : Position) (hty : t.type = TxType.achat)
    (hfind : acc.positions.find? (fun p => p.code == t.code) = some ex) :
    replayStep all acc t =
      { acc with
          positions := replaceFirst (fun p => p.code == t.code)
            ⟨ex.code, ex.name, ex.quantity + t.quantity,
             ex.totalCost + replayBuyCost t,
             (ex.totalCost + replayBuyCost t) / (ex.quantity + t.quantity)⟩
            acc.positions } := by
  unfold replayStep
  rw [hty]
  dsimp only
  rw [hfind]
  rfl

/-- A replay sell step with no matching position is skipped. -/
theorem replayStep_vente_none (all : List Transaction) (acc : ReplayAcc)
    (t : Transaction) (hty : t.type = TxType.vente)
    (hfind : acc.positions.find? (fun p => p.code == t.code) = none) :
    replayStep all acc t = acc := by
  unfold replayStep
  rw [hty]
  dsimp only
  rw [hfind]

/-- Characterisation of a replay sell step with sufficient inventory. -/
theorem replayStep_vente_ok (all : List Transaction) (acc : ReplayAcc)
    (t : Transaction) (ex : Position) (hty : t.type = TxType.vente)
    (hfind : acc.positions.find? (fun p => p.code == t.code) = some ex)
    (hq : t.quantity ≤ ex.quantity) :
    replayStep all acc t =
      { positions :=
          if ex.quantity - t.quantity = 0 then
            removeFirst (fun p => p.code == t.code) acc.positions
          else replaceFirst (fun p => p.code == t.code)
            ⟨ex.code, ex.name, ex.quantity - t.quantity,
             ex.totalCost - t.quantity * ex.pru, ex.pru⟩
            acc.positions,
        closed := acc.closed ++
          [⟨t.code, t.name, salePurchaseDate all t.code t.date, t.date,
            t.quantity, ex.pru, replaySaleProceeds t / t.quantity,
            t.quantity * ex.pru, replaySaleProceeds t,
            replaySaleProceeds t - t.quantity * ex.pru,
            (replaySaleProceeds t - t.quantity * ex.pru) / (t.quantity * ex.pru) * 100,
            windowDividends all t.code (salePurchaseDate all t.code t.date)
              t.date⟩] } := by
  unfold replayStep
  rw [hty]
  dsimp only
  rw [hfind]
  dsimp only
  rw [if_pos hq]
  rfl

/-- Characterisation of an import buy step when no position matches the
normalised code. -/
theorem importStep_achat_none (acc : ImportAcc) (tx : Transaction)
    (hty : tx.type = TxType.achat)
    (hfind : acc.positions.find? (fun p => normCode p.code == normCode tx.code)
      = none) :
    importStep acc tx =
      { allTx := acc.allTx ++ [tx],
        positions := acc.positions ++
          [⟨tx.code, tx.name, tx.quantity, purchaseCost tx,
            purchaseCost tx / tx.quantity⟩],
        closed := acc.closed } := by
  unfold importStep
  rw [hty]
  dsimp only
  rw [hfind]
  rfl

/-- An import sell step with no matching position still records the
transaction but is otherwise skipped. -/
theorem importStep_vente_none (acc : ImportAcc) (tx : Transaction)
    (hty : tx.type = TxType.vente)
    (hfind : acc.positions.find? (fun p => normCode p.code == normCode tx.code)
      = none) :
    importStep acc tx = { acc with allTx := acc.allTx ++ [tx] } := by
  unfold importStep
  rw [hty]
  dsimp only
  rw [hfind]

/-- Characterisation of an import sell step with sufficient inventory: the
appended closed position always carries dividends 0. -/
theorem importStep_vente_ok (acc : ImportAcc) (tx : Transaction) (ex : Position)
    (hty : tx.type = TxType.vente)
    (hfind : acc.positions.find? (fun p => normCode p.code == normCode tx.code)
      = some ex)
    (hq : ¬ ex.quantity < tx.quantity) :
    importStep acc tx =
      { allTx := acc.allTx ++ [tx],
        positions :=
          if ex.quantity - tx.quantity = 0 then
            removeFirst (fun p => normCode p.code == normCode tx.code)
              acc.positions
          else replaceFirst (fun p => normCode p.code == normCode tx.code)
            ⟨ex.code, ex.name, ex.quantity - tx.quantity,
             ex.totalCost - tx.quantity * ex.pru, ex.pru⟩
            acc.positions,
        closed := acc.closed ++
          [⟨tx.code, tx.name,
            importPurchaseDate (acc.allTx ++ [tx]) tx.code tx.date, tx.date,
            tx.quantity, ex.pru, saleProceeds tx / tx.quantity,
            tx.quantity * ex.pru, saleProceeds tx,
            saleProceeds tx - tx.quantity * ex.pru,
            (saleProceeds tx - tx.quantity * ex.pru) / (tx.quantity * ex.pru) * 100,
            0⟩] } := by
  unfold importStep
  rw [hty]
  dsimp only
  rw [hfind]
  dsimp only
  rw [if_neg hq]
  rfl

/-- Characterisation of a spec replay buy step on no matching position. -/
theorem specReplayStep_achat_none (all : List Transaction) (acc : ReplayAcc)
    (t : Transaction) (hty : t.type = TxType.achat)
    (hfind : acc.positions.find? (fun p => normCode p.code == normCode t.code)
      = none) :
    specReplayStep all acc t =
      { acc with positions := acc.positions ++
          [⟨t.code, t.name, t.quantity, buyCostSpec t,
            buyCostSpec t / t.quantity⟩] } := by
  unfold specReplayStep
  rw [hty]
  dsimp only
  rw [hfind]
  rfl

/-- Characterisation of a spec replay sell step with sufficient inventory. -/
theorem specReplayStep_vente_ok (all : List Transaction) (acc : ReplayAcc)
    (t : Transaction) (ex : Position) (hty : t.type = TxType.vente)
    (hfind : acc.positions.find? (fun p => normCode p.code == normCode t.code)
      = some ex)
    (hq : t.quantity ≤ ex.quantity) :
    specReplayStep all acc t =
      { positions :=
          if ex.quantity - t.quantity = 0 then
            removeFirst (fun p => normCode p.code == normCode t.code)
              acc.positions
          else replaceFirst (fun p => normCode p.code == normCode t.code)
            ⟨ex.code, ex.name, ex.quantity - t.quantity,
             ex.totalCost - t.quantity * ex.pru, ex.pru⟩
            acc.positions,
        closed := acc.closed ++
          [⟨t.code, t.name, salePurchaseDate all t.code t.date, t.date,
            t.quantity, ex.pru, specSaleProceeds t / t.quantity,
            t.quantity * ex.pru, specSaleProceeds t,
            specSaleProceeds t - t.quantity * ex.pru,
            (specSaleProceeds t - t.quantity * ex.pru) / (t.quantity * ex.pru) * 100,
            windowDividends all t.code (salePurchaseDate all t.code t.date)
              t.date⟩] } := by
  unfold specReplayStep
  rw [hty]
  dsimp only
  rw [hfind]
  dsimp only
  rw [if_pos hq]
  rfl

/-- Destructured form of the add-buy unfolding, convenient for concrete
computations on explicit states. -/
theorem addTx_achat (tx : Transaction) (ts : List Transaction)
    (ps : List Position) (cs : List ClosedPosition) (c : ℚ)
    (hty : tx.type = TxType.achat) :
    handleAddTransaction tx ⟨ts, ps, cs, c⟩
      = handlePurchase tx ⟨ts ++ [tx], ps, cs, c⟩ :=
  handleAddTransaction_achat tx ⟨ts, ps, cs, c⟩ hty

/-- Destructured form of the add-sell unfolding. -/
theorem addTx_vente (tx : Transaction) (ts : List Transaction)
    (ps : List Position) (cs : List ClosedPosition) (c : ℚ)
    (hty : tx.type = TxType.vente) :
    handleAddTransaction tx ⟨ts, ps, cs, c⟩
      = handleSale tx (ts ++ [tx]) ⟨ts ++ [tx], ps, cs, c⟩ :=
  handleAddTransaction_vente tx ⟨ts, ps, cs, c⟩ hty

/-- Destructured form of the purchase characterisation on a fresh code. -/
theorem purchase_none (tx : Transaction) (ts : List Transaction)
    (ps : List Position) (cs : List ClosedPosition) (c : ℚ)
    (hfind : ps.find? (fun p => normCode p.code == normCode tx.code) = none) :
    handlePurchase tx ⟨ts, ps, cs, c⟩
      = ⟨ts, upsertPosition ps
          ⟨tx.code, tx.name, tx.quantity, purchaseCost tx,
           purchaseCost tx / tx.quantity⟩, cs, c - purchaseCost tx⟩ :=
  handlePurchase_none tx ⟨ts, ps, cs, c⟩ hfind

/-- Destructured form of the purchase characterisation on a held code. -/
theorem purchase_some (tx : Transaction) (ts : List Transaction)
    (ps : List Position) (cs : List ClosedPosition) (c : ℚ) (ex : Position)
    (hfind : ps.find? (fun p => normCode p.code == normCode tx.code) = some ex) :
    handlePurchase tx ⟨ts, ps, cs, c⟩
      = ⟨ts, upsertPosition ps
          ⟨tx.code, tx.name, ex.quantity + tx.quantity,
           ex.totalCost + purchaseCost tx,
           (ex.totalCost + purchaseCost tx) / (ex.quantity + tx.quantity)⟩,
         cs, c - purchaseCost tx⟩ :=
  handlePurchase_some tx ⟨ts, ps, cs, c⟩ ex hfind

/-- Destructured form of the sufficient-inventory sale characterisation. -/
theorem sale_ok (tx : Transaction) (txs ts : List Transaction)
    (ps : List Position) (cs : List ClosedPosition) (c : ℚ) (ex : Position)
    (hfind : ps.find? (fun p => p.code == tx.code) = some ex)
    (hq : ¬ ex.quantity < tx.quantity) :
    handleSale tx txs ⟨ts, ps, cs, c⟩
      = ⟨ts,
         (if ex.quantity - tx.quantity = 0 then dbDeletePosition ps tx.code
          else upsertPosition ps
            ⟨tx.code, ex.name, ex.quantity - tx.quantity,
             ex.totalCost - tx.quantity * ex.pru, ex.pru⟩),
         cs ++ [⟨tx.code, tx.name, salePurchaseDate txs tx.code tx.date, tx.date,
           tx.quantity, ex.pru, saleProceeds tx / tx.quantity,
           tx.quantity * ex.pru, saleProceeds tx,
           saleProceeds tx - tx.quantity * ex.pru,
           (saleProceeds tx - tx.quantity * ex.pru) / (tx.quantity * ex.pru) * 100,
           windowDividends txs tx.code (salePurchaseDate txs tx.code tx.date)
             tx.date⟩],
         c + saleProceeds tx⟩ :=
  handleSale_ok tx txs ⟨ts, ps, cs, c⟩ ex hfind hq

/-- Unfolding of the delete-transaction recompute on a destructured state. -/
theorem deleteTx_eq (id : Nat) (ts : List Transaction) (ps : List Position)
    (cs : List ClosedPosition) (c : ℚ) :
    handleDeleteTransaction id ⟨ts, ps, cs, c⟩
      = ⟨ts.filter (fun t => t.id != id),
         ((sortByDate ((ts.filter (fun t => t.id != id)).filter
             (fun t => t.type == TxType.achat || t.type == TxType.vente))).foldl
           (replayStep (ts.filter (fun t => t.id != id))) ⟨[], []⟩).positions,
         ((sortByDate ((ts.filter (fun t => t.id != id)).filter
             (fun t => t.type == TxType.achat || t.type == TxType.vente))).foldl
           (replayStep (ts.filter (fun t => t.id != id))) ⟨[], []⟩).closed,
         c⟩ := rfl

/-- Unfolding of the buy-first tie-break replay on a destructured state. -/
theorem deleteReplayBuyFirst_eq (id : Nat) (ts : List Transaction)
    (ps : List Position) (cs : List ClosedPosition) (c : ℚ) :
    deleteReplayBuyFirst id ⟨ts, ps, cs, c⟩
      = ⟨ts.filter (fun t => t.id != id),
         ((sortBuyFirst ((ts.filter (fun t => t.id != id)).filter
             (fun t => t.type == TxType.achat || t.type == TxType.vente))).foldl
           (replayStep (ts.filter (fun t => t.id != id))) ⟨[], []⟩).positions,
         ((sortBuyFirst ((ts.filter (fun t => t.id != id)).filter
             (fun t => t.type == TxType.achat || t.type == TxType.vente))).foldl
           (replayStep (ts.filter (fun t => t.id != id))) ⟨[], []⟩).closed,
         c⟩ := rfl

/-- Unfolding of the import handler on a destructured state. -/
theorem importTx_eq (txs ts : List Transaction) (ps : List Position)
    (cs : List ClosedPosition) (c : ℚ) :
    handleImportTransactions txs ⟨ts, ps, cs, c⟩
      = ⟨(txs.foldl importStep ⟨ts, ps, cs⟩).allTx,
         (txs.foldl importStep ⟨ts, ps, cs⟩).positions,
         (txs.foldl importStep ⟨ts, ps, cs⟩).closed,
         c⟩ := rfl

/-- Unfolding of the spec's import-as-replay on a destructured state. -/
theorem specImportReplay_eq (txs ts : List Transaction) (ps : List Position)
    (cs : List ClosedPosition) (c : ℚ) :
    specImportReplay txs ⟨ts, ps, cs, c⟩
      = ⟨ts ++ txs,
         ((sortBuyFirst ((ts ++ txs).filter
             (fun t => t.type == TxType.achat || t.type == TxType.vente))).foldl
           (specReplayStep (ts ++ txs)) ⟨[], []⟩).positions,
         ((sortBuyFirst ((ts ++ txs).filter
             (fun t => t.type == TxType.achat || t.type == TxType.vente))).foldl
           (specReplayStep (ts ++ txs)) ⟨[], []⟩).closed,
         c⟩ := rfl

/-- C2: starting from the empty state, Buy 10 at 100 (fees 5) then
Buy 10 at 110 (fees 5) yields the position quantity 20, totalCost 2110,
pru 105.5; the following Sell 15 at 120 (fees 3) produces totalSale 1797,
totalPurchase 1582.5, gainLoss 214.5 and leaves the position quantity 5,
totalCost 527.5, pru 105.5. -/
theorem C2_scenario :
    (applyTransactions [c2buy1, c2buy2] emptyState).positions
      = [⟨"AAPL", "Apple", 20, 2110, 105.5⟩] ∧
    ((applyTransactions [c2buy1, c2buy2, c2sell] emptyState).closedPositions.map
        (fun c => (c.totalSale, c.totalPurchase, c.gainLoss)))
      = [(1797, 1582.5, 214.5)] ∧
    (applyTransactions [c2buy1, c2buy2, c2sell] emptyState).positions
      = [⟨"AAPL", "Apple", 5, 527.5, 105.5⟩] := by
  have h1 : handleAddTransaction c2buy1 emptyState
      = ⟨[c2buy1], [⟨"AAPL", "Apple", 10, 1005, 100.5⟩], [], -1005⟩ := by
    rw [show emptyState = ⟨[], [], [], 0⟩ from rfl,
        addTx_achat c2buy1 [] [] [] 0 rfl,
        purchase_none c2buy1 ([] ++ [c2buy1]) [] [] 0 rfl]
    norm_num [purchaseCost, orOne, upsertPosition, c2buy1]
  have h2 : handleAddTransaction c2buy2
        (⟨[c2buy1], [⟨"AAPL", "Apple", 10, 1005, 100.5⟩], [], -1005⟩ : PState)
      = ⟨[c2buy1, c2buy2], [⟨"AAPL", "Apple", 20, 2110, 105.5⟩], [], -2110⟩ := by
    rw [addTx_achat c2buy2 [c2buy1] [⟨"AAPL", "Apple", 10, 1005, 100.5⟩] [] (-1005) rfl,
        purchase_some c2buy2 ([c2buy1] ++ [c2buy2])
          [⟨"AAPL", "Apple", 10, 1005, 100.5⟩] [] (-1005)
          ⟨"AAPL", "Apple", 10, 1005, 100.5⟩ (by with_unfolding_all decide)]
    norm_num [purchaseCost, orOne, upsertPosition, c2buy2]
  have hpd : salePurchaseDate ([c2buy1, c2buy2] ++ [c2sell]) c2sell.code c2sell.date
      = 1 := by with_unfolding_all decide
  have hwd : windowDividends ([c2buy1, c2buy2] ++ [c2sell]) c2sell.code 1 c2sell.date
      = 0 := by with_unfolding_all decide
  have h3 : handleAddTransaction c2sell
        (⟨[c2buy1, c2buy2], [⟨"AAPL", "Apple", 20, 2110, 105.5⟩], [], -2110⟩ : PState)
      = ⟨[c2buy1, c2buy2, c2sell],
         [⟨"AAPL", "Apple", 5, 527.5, 105.5⟩],
         [⟨"AAPL", "Apple", 1, 3, 15, 105.5, 119.8, 1582.5, 1797, 214.5,
           2860/211, 0⟩], -313⟩ := by
    rw [addTx_vente c2sell [c2buy1, c2buy2]
          [⟨"AAPL", "Apple", 20, 2110, 105.5⟩] [] (-2110) rfl,
        sale_ok c2sell ([c2buy1, c2buy2] ++ [c2sell]) ([c2buy1, c2buy2] ++ [c2sell])
          [⟨"AAPL", "Apple", 20, 2110, 105.5⟩] [] (-2110)
          ⟨"AAPL", "Apple", 20, 2110, 105.5⟩ rfl
          (by norm_num [c2sell]),
        hpd, hwd]
    norm_num [saleProceeds, orOne, upsertPosition, dbDeletePosition, c2sell]
  have e2 : applyTransactions [c2buy1, c2buy2] emptyState
      = ⟨[c2buy1, c2buy2], [⟨"AAPL", "Apple", 20, 2110, 105.5⟩], [], -2110⟩ := by
    simp only [applyTransactions, List.foldl_cons, List.foldl_nil]
    rw [h1, h2]
  have e3 : applyTransactions [c2buy1, c2buy2, c2sell] emptyState
      = ⟨[c2buy1, c2buy2, c2sell],
         [⟨"AAPL", "Apple", 5, 527.5, 105.5⟩],
         [⟨"AAPL", "Apple", 1, 3, 15, 105.5, 119.8, 1582.5, 1797, 214.5,
           2860/211, 0⟩], -313⟩ := by
    simp only [applyTransactions, List.foldl_cons, List.foldl_nil]
    rw [h1, h2, h3]
  rw [e2, e3]
  norm_num

/-- C10: the bulk import never writes the portfolios table, so the owning
portfolio's cash is unchanged by any import into any state. -/
theorem C10_import_preserves_cash (txs : List Transaction) (s : PState) :
    (handleImportTransactions txs s).cash = s.cash := rfl

/-- C9: a withdrawal with amount strictly greater than cash is rejected with
the whole state unchanged; a withdrawal with amount at most cash decreases
cash by exactly the amount and appends one synthetic transaction with
quantity 1 and unitPrice equal to the amount. -/
theorem C9_withdrawal_cases (newId : Nat) (amount : ℚ) (date : ℤ) (s : PState) :
    (s.cash < amount → handleUpdateCash newId amount false date s = s) ∧
    (amount ≤ s.cash →
      (handleUpdateCash newId amount false date s).cash = s.cash - amount ∧
      (handleUpdateCash newId amount false date s).transactions
        = s.transactions ++ [mkCashTx newId amount false date] ∧
      (handleUpdateCash newId amount false date s).positions = s.positions ∧
      (handleUpdateCash newId amount false date s).closedPositions
        = s.closedPositions) := by
  unfold handleUpdateCash
  constructor
  · intro h
    rw [if_pos]
    show s.cash - amount < 0
    linarith
  · intro h
    rw [if_neg]
    · exact ⟨rfl, rfl, rfl, rfl⟩
    · show ¬ s.cash - amount < 0
      linarith

/-- Witness for C9 at concrete inputs: withdrawing 7 from cash 5 is rejected
in full; withdrawing 3 from cash 5 leaves cash 2 and records the synthetic
transaction. -/
theorem C9_withdrawal_cases_witness :
    handleUpdateCash 5 7 false 1 ⟨[], [], [], 5⟩ = ⟨[], [], [], 5⟩ ∧
    (handleUpdateCash 6 3 false 1 ⟨[], [], [], 5⟩).cash = 2 ∧
    (handleUpdateCash 6 3 false 1 ⟨[], [], [], 5⟩).transactions
      = [mkCashTx 6 3 false 1] := by
  refine ⟨(C9_withdrawal_cases 5 7 1 ⟨[], [], [], 5⟩).1 (by norm_num), ?_, ?_⟩
  · have h := (C9_withdrawal_cases 6 3 1 ⟨[], [], [], 5⟩).2 (by norm_num)
    rw [h.1]
    norm_num
  · have h := (C9_withdrawal_cases 6 3 1 ⟨[], [], [], 5⟩).2 (by norm_num)
    rw [h.2.1]
    rfl

/-- C6 counterexample: the claim states that an oversized sell is rejected
before any store write, with no transaction record persisted; but the source
persists the transaction record (dbAddTransaction) BEFORE the quantity check.
Selling 2 units against a 1-unit position grows the stored history from zero
to one record even though positions, closed positions and cash are
untouched. -/
theorem C6_counterexample :
    (handleAddTransaction c6sell c6state).transactions = [c6sell] ∧
    c6state.transactions = [] ∧
    (handleAddTransaction c6sell c6state).positions = c6state.positions ∧
    (handleAddTransaction c6sell c6state).closedPositions
      = c6state.closedPositions ∧
    (handleAddTransaction c6sell c6state).cash = c6state.cash := by
  refine ⟨by with_unfolding_all decide, rfl, by with_unfolding_all decide, by with_unfolding_all decide, by with_unfolding_all decide⟩

/-- C6 amended: for every sell whose quantity exceeds the found open
position's quantity, the add-transaction path leaves positions, closed
positions and cash unchanged, but the transaction record itself IS persisted
to the history before the check. -/
theorem C6_oversell_frame (tx : Transaction) (s : PState) (ex : Position)
    (hty : tx.type = TxType.vente)
    (hfind : s.positions.find? (fun p => p.code == tx.code) = some ex)
    (hlt : ex.quantity < tx.quantity) :
    (handleAddTransaction tx s).positions = s.positions ∧
    (handleAddTransaction tx s).closedPositions = s.closedPositions ∧
    (handleAddTransaction tx s).cash = s.cash ∧
    (handleAddTransaction tx s).transactions = s.transactions ++ [tx] := by
  rw [handleAddTransaction_vente tx s hty,
      handleSale_oversell tx (s.transactions ++ [tx])
        { s with transactions := s.transactions ++ [tx] } ex hfind hlt]
  exact ⟨rfl, rfl, rfl, rfl⟩

/-- Witness for C6 at a concrete input: selling 2 units against a 1-unit
position keeps the derived state and cash, and appends the record. -/
theorem C6_oversell_frame_witness :
    (handleAddTransaction c6sell c6state).positions = c6state.positions ∧
    (handleAddTransaction c6sell c6state).closedPositions
      = c6state.closedPositions ∧
    (handleAddTransaction c6sell c6state).cash = c6state.cash ∧
    (handleAddTransaction c6sell c6state).transactions
      = c6state.transactions ++ [c6sell] :=
  C6_oversell_frame c6sell c6state c6pos (by with_unfolding_all decide) (by with_unfolding_all decide) (by with_unfolding_all decide)

/-- C7 counterexample: the claim states that a sell with code aapl finds and
reduces a position created by a buy with code AAPL; but the incremental sale
path looks positions up by the EXACT code string, so the sell is skipped: the
position is unchanged and no closed position is created. -/
theorem C7_counterexample :
    (applyTransactions [c7buy1, c7sell] emptyState).positions
      = (applyTransactions [c7buy1] emptyState).positions ∧
    (applyTransactions [c7buy1, c7sell] emptyState).positions
      = [⟨"AAPL", "Apple", 10, 100, 10⟩] ∧
    (applyTransactions [c7buy1, c7sell] emptyState).closedPositions = [] := by
  refine ⟨by with_unfolding_all decide, by with_unfolding_all decide, by with_unfolding_all decide⟩

/-- C7 amended: only the purchase (and import) look-up is case-insensitive
and trimmed - a second buy under the code aapl with a trailing blank is
merged into the quantities of the AAPL position (though the store write keys
on the raw code and leaves the old row behind) - while the incremental sale
path matches the code exactly and does not resolve aapl to AAPL. -/
theorem C7_lookup_asymmetry :
    (applyTransactions [c7buy1, c7buy2] emptyState).positions
      = [⟨"AAPL", "Apple", 10, 100, 10⟩, ⟨"aapl ", "Apple", 15, 150, 10⟩] ∧
    (applyTransactions [c7buy1, c7sell] emptyState).positions
      = [⟨"AAPL", "Apple", 10, 100, 10⟩] ∧
    (applyTransactions [c7buy1, c7sell] emptyState).closedPositions = [] := by
  refine ⟨by with_unfolding_all decide, by with_unfolding_all decide, by with_unfolding_all decide⟩

/-- C4 counterexample: the claim states that every buy path adds
quantity times converted price plus fees plus tff, with fees and tff NOT
multiplied by the conversion rate, and that both paths agree; but the
delete-transaction replay multiplies fees and tff by the conversion rate.
For a buy of 1 unit at 10, fees 1, rate 2, the incremental path stores
totalCost 21 while the replay stores totalCost 22. -/
theorem C4_counterexample :
    (handleAddTransaction c4buy emptyState).positions
      = [⟨"ACME", "Acme", 1, 21, 21⟩] ∧
    (handleDeleteTransaction 99 ⟨[c4buy], [], [], 0⟩).positions
      = [⟨"ACME", "Acme", 1, 22, 22⟩] := by
  refine ⟨by with_unfolding_all decide, by with_unfolding_all decide⟩

/-- C3 counterexample: the claim states that the delete-transaction replay
breaks date ties buy-before-sell so that a same-day sell always has
inventory regardless of stored order; but the source sorts by date only,
keeping stored order on ties.  With a same-day sell stored before its buy,
the code's replay emits no closed position and leaves the position open,
while the buy-first replay the claim describes would close it. -/
theorem C3_counterexample :
    (handleDeleteTransaction 99 c3state).closedPositions = [] ∧
    (handleDeleteTransaction 99 c3state).positions.length = 1 ∧
    (deleteReplayBuyFirst 99 c3state).closedPositions.length = 1 ∧
    (deleteReplayBuyFirst 99 c3state).positions = [] := by
  have hcode : handleDeleteTransaction 99 c3state
      = ⟨[c3sell, c3buy], [⟨"ACME", "Acme", 1, 10, 10⟩], [], 0⟩ := by
    rw [show c3state = ⟨[c3sell, c3buy], [], [], 0⟩ from rfl, deleteTx_eq]
    rw [show [c3sell, c3buy].filter (fun t => t.id != 99) = [c3sell, c3buy]
          from by with_unfolding_all decide]
    rw [show [c3sell, c3buy].filter
          (fun t => t.type == TxType.achat || t.type == TxType.vente)
          = [c3sell, c3buy] from by with_unfolding_all decide]
    rw [show sortByDate [c3sell, c3buy] = [c3sell, c3buy]
          from by with_unfolding_all decide]
    simp only [List.foldl_cons, List.foldl_nil]
    rw [replayStep_vente_none [c3sell, c3buy] ⟨[], []⟩ c3sell rfl rfl,
        replayStep_achat_none [c3sell, c3buy] ⟨[], []⟩ c3buy rfl rfl]
    norm_num [replayBuyCost, c3buy]
  have hacc1 : replayStep [c3sell, c3buy] ⟨[], []⟩ c3buy
      = ⟨[⟨"ACME", "Acme", 1, 10, 10⟩], []⟩ := by
    rw [replayStep_achat_none [c3sell, c3buy] ⟨[], []⟩ c3buy rfl rfl]
    norm_num [replayBuyCost, c3buy]
  have hspec : deleteReplayBuyFirst 99 c3state
      = ⟨[c3sell, c3buy], [], [⟨"ACME", "Acme", 5, 5, 1, 10, 10, 10, 10, 0, 0, 0⟩],
         0⟩ := by
    rw [show c3state = ⟨[c3sell, c3buy], [], [], 0⟩ from rfl,
        deleteReplayBuyFirst_eq]
    rw [show [c3sell, c3buy].filter (fun t => t.id != 99) = [c3sell, c3buy]
          from by with_unfolding_all decide]
    rw [show [c3sell, c3buy].filter
          (fun t => t.type == TxType.achat || t.type == TxType.vente)
          = [c3sell, c3buy] from by with_unfolding_all decide]
    rw [show sortBuyFirst [c3sell, c3buy] = [c3buy, c3sell]
          from by with_unfolding_all decide]
    simp only [List.foldl_cons, List.foldl_nil]
    rw [hacc1,
        replayStep_vente_ok [c3sell, c3buy] ⟨[⟨"ACME", "Acme", 1, 10, 10⟩], []⟩
          c3sell ⟨"ACME", "Acme", 1, 10, 10⟩ rfl rfl
          (by with_unfolding_all decide)]
    rw [show salePurchaseDate [c3sell, c3buy] c3sell.code c3sell.date = 5
          from by with_unfolding_all decide]
    rw [show windowDividends [c3sell, c3buy] c3sell.code 5 c3sell.date = 0
          from by with_unfolding_all decide]
    norm_num [replaySaleProceeds, removeFirst, c3sell]
  rw [hcode, hspec]
  norm_num

/-- C3 amended: the delete-transaction replay sorts the remaining buys and
sells by date only; the stable sort keeps the stored order on ties, so for a
same-day sell stored before its buy the sell is processed first, finds no
inventory and is skipped, leaving the buy's position open and no closed
position - there is no buy-before-sell tie-break. -/
theorem C3_tie_keeps_stored_order (v b : Transaction) (did : Nat)
    (hv : v.type = TxType.vente) (hb : b.type = TxType.achat)
    (hdate : v.date = b.date) (_hcode : v.code = b.code)
    (hvid : v.id ≠ did) (hbid : b.id ≠ did) :
    (handleDeleteTransaction did ⟨[v, b], [], [], 0⟩).closedPositions = [] ∧
    (handleDeleteTransaction did ⟨[v, b], [], [], 0⟩).positions.length = 1 := by
  rw [deleteTx_eq]
  have hv1 : (v.id != did) = true := by simpa using hvid
  have hb1 : (b.id != did) = true := by simpa using hbid
  have hfil : ([v, b].filter (fun t => t.id != did)) = [v, b] := by
    simp [List.filter, hv1, hb1]
  rw [hfil]
  have hfil2 : ([v, b].filter
      (fun t => t.type == TxType.achat || t.type == TxType.vente)) = [v, b] := by
    simp [List.filter, hv, hb]
  rw [hfil2]
  have hsort : sortByDate [v, b] = [v, b] := by
    simp [sortByDate, dateLe, hdate]
  rw [hsort]
  simp only [List.foldl_cons, List.foldl_nil]
  rw [replayStep_vente_none [v, b] ⟨[], []⟩ v hv rfl,
      replayStep_achat_none [v, b] ⟨[], []⟩ b hb rfl]
  simp

/-- Witness for C3 at the concrete same-day pair: the stored-first sell is
skipped and the buy's position stays open. -/
theorem C3_tie_keeps_stored_order_witness :
    (handleDeleteTransaction 99 ⟨[c3sell, c3buy], [], [], 0⟩).closedPositions
      = [] ∧
    (handleDeleteTransaction 99 ⟨[c3sell, c3buy], [], [], 0⟩).positions.length
      = 1 :=
  C3_tie_keeps_stored_order c3sell c3buy 99 rfl rfl rfl rfl
    (by with_unfolding_all decide) (by with_unfolding_all decide)

/-- Every branch of the import loop appends the incoming transaction to the
accumulated full transaction list. -/
theorem importStep_allTx (acc : ImportAcc) (t : Transaction) :
    (importStep acc t).allTx = acc.allTx ++ [t] := by
  unfold importStep
  split <;> dsimp only <;> first
    | rfl
    | (split <;> first | rfl | (split <;> rfl))

/-- Folding the import loop appends the whole batch, in order, to the
accumulated transaction list. -/
theorem importFold_allTx (txs : List Transaction) (acc : ImportAcc) :
    (txs.foldl importStep acc).allTx = acc.allTx ++ txs := by
  induction txs generalizing acc with
  | nil => simp
  | cons t ts ih =>
      rw [List.foldl_cons, ih (importStep acc t), importStep_allTx,
        List.append_assoc]
      rfl

/-- A closed position present after one import step either was already there
or carries dividends 0. -/
theorem importStep_closed_sub (acc : ImportAcc) (t : Transaction)
    (cp : ClosedPosition) (hcp : cp ∈ (importStep acc t).closed) :
    cp ∈ acc.closed ∨ cp.dividends = 0 := by
  unfold importStep at hcp
  split at hcp <;> dsimp only at hcp
  · split at hcp <;> exact Or.inl hcp
  · split at hcp
    · exact Or.inl hcp
    · split at hcp
      · exact Or.inl hcp
      · rcases List.mem_append.mp hcp with h | h
        · exact Or.inl h
        · exact Or.inr (by rw [List.mem_singleton.mp h])
  · exact Or.inl hcp

/-- A closed position present after folding the import loop either was
already stored or carries dividends 0. -/
theorem importFold_closed (txs : List Transaction) (acc : ImportAcc)
    (cp : ClosedPosition) (hcp : cp ∈ (txs.foldl importStep acc).closed) :
    cp ∈ acc.closed ∨ cp.dividends = 0 := by
  induction txs generalizing acc with
  | nil => exact Or.inl hcp
  | cons t ts ih =>
      rcases ih (importStep acc t) (by simpa using hcp) with h | h
      · exact importStep_closed_sub acc t cp h
      · exact Or.inr h

/-- Importing the sell-before-buy batch leaves the sell unapplied: the buy's
position stays open and nothing is closed. -/
theorem import_c5_sell_first :
    handleImportTransactions [c5sell, c5buy] emptyState
      = ⟨[c5sell, c5buy], [⟨"ACME", "Acme", 1, 10, 10⟩], [], 0⟩ := by
  have i1 : importStep ⟨[], [], []⟩ c5sell = ⟨[c5sell], [], []⟩ := by
    rw [importStep_vente_none ⟨[], [], []⟩ c5sell rfl rfl]
    rfl
  have i2 : importStep ⟨[c5sell], [], []⟩ c5buy
      = ⟨[c5sell, c5buy], [⟨"ACME", "Acme", 1, 10, 10⟩], []⟩ := by
    rw [importStep_achat_none ⟨[c5sell], [], []⟩ c5buy rfl rfl]
    norm_num [purchaseCost, orOne, c5buy]
  rw [show emptyState = ⟨[], [], [], 0⟩ from rfl, importTx_eq]
  simp only [List.foldl_cons, List.foldl_nil]
  rw [i1, i2]

/-- Importing the same two transactions in date order closes the position:
the import applies the batch in its GIVEN order. -/
theorem import_c5_sorted :
    handleImportTransactions [c5buy, c5sell] emptyState
      = ⟨[c5buy, c5sell], [],
         [⟨"ACME", "Acme", 1, 2, 1, 10, 10, 10, 10, 0, 0, 0⟩], 0⟩ := by
  have i1 : importStep ⟨[], [], []⟩ c5buy
      = ⟨[c5buy], [⟨"ACME", "Acme", 1, 10, 10⟩], []⟩ := by
    rw [importStep_achat_none ⟨[], [], []⟩ c5buy rfl rfl]
    norm_num [purchaseCost, orOne, c5buy]
  have i2 : importStep ⟨[c5buy], [⟨"ACME", "Acme", 1, 10, 10⟩], []⟩ c5sell
      = ⟨[c5buy, c5sell], [],
         [⟨"ACME", "Acme", 1, 2, 1, 10, 10, 10, 10, 0, 0, 0⟩]⟩ := by
    rw [importStep_vente_ok ⟨[c5buy], [⟨"ACME", "Acme", 1, 10, 10⟩], []⟩ c5sell
          ⟨"ACME", "Acme", 1, 10, 10⟩ rfl (by with_unfolding_all decide)
          (by with_unfolding_all decide)]
    rw [show importPurchaseDate ([c5buy] ++ [c5sell]) c5sell.code c5sell.date = 1
          from by with_unfolding_all decide]
    norm_num [saleProceeds, orOne, removeFirst, c5sell]
  rw [show emptyState = ⟨[], [], [], 0⟩ from rfl, importTx_eq]
  simp only [List.foldl_cons, List.foldl_nil]
  rw [i1, i2]

/-- The spec's merge-sort-replay treatment of the same sell-before-buy batch:
the union is sorted, the buy applies first and the sell closes the
position. -/
theorem spec_c5_replay :
    specImportReplay [c5sell, c5buy] emptyState
      = ⟨[c5sell, c5buy], [],
         [⟨"ACME", "Acme", 1, 2, 1, 10, 10, 10, 10, 0, 0, 0⟩], 0⟩ := by
  have sp1 : specReplayStep ([] ++ [c5sell, c5buy]) ⟨[], []⟩ c5buy
      = ⟨[⟨"ACME", "Acme", 1, 10, 10⟩], []⟩ := by
    rw [specReplayStep_achat_none ([] ++ [c5sell, c5buy]) ⟨[], []⟩ c5buy rfl rfl]
    norm_num [buyCostSpec, c5buy]
  have sp2 : specReplayStep ([] ++ [c5sell, c5buy])
        ⟨[⟨"ACME", "Acme", 1, 10, 10⟩], []⟩ c5sell
      = ⟨[], [⟨"ACME", "Acme", 1, 2, 1, 10, 10, 10, 10, 0, 0, 0⟩]⟩ := by
    rw [specReplayStep_vente_ok ([] ++ [c5sell, c5buy])
          ⟨[⟨"ACME", "Acme", 1, 10, 10⟩], []⟩ c5sell
          ⟨"ACME", "Acme", 1, 10, 10⟩ rfl (by with_unfolding_all decide)
          (by with_unfolding_all decide)]
    rw [show salePurchaseDate ([] ++ [c5sell, c5buy]) c5sell.code c5sell.date = 1
          from by with_unfolding_all decide]
    rw [show windowDividends ([] ++ [c5sell, c5buy]) c5sell.code 1 c5sell.date = 0
          from by with_unfolding_all decide]
    norm_num [specSaleProceeds, removeFirst, c5sell]
  have hflt : ([] ++ [c5sell, c5buy]).filter
      (fun t => t.type == TxType.achat || t.type == TxType.vente)
      = [c5sell, c5buy] := by with_unfolding_all decide
  have hsrt : sortBuyFirst [c5sell, c5buy] = [c5buy, c5sell] := by
    with_unfolding_all decide
  rw [show emptyState = ⟨[], [], [], 0⟩ from rfl, specImportReplay_eq, hflt, hsrt]
  simp only [List.foldl_cons, List.foldl_nil]
  rw [sp1, sp2]
  norm_num

/-- C5 counterexample: the claim states that importing a batch equals sorting
the union with the existing history and replaying it from empty; but the
source applies the batch in its given order on top of the stored positions.
Importing a sell listed before its (earlier-dated) buy leaves the position
open and closes nothing, while the sort-and-replay the claim describes
closes it. -/
theorem C5_counterexample :
    (handleImportTransactions [c5sell, c5buy] emptyState).closedPositions = [] ∧
    (handleImportTransactions [c5sell, c5buy] emptyState).positions.length = 1 ∧
    (specImportReplay [c5sell, c5buy] emptyState).closedPositions.length = 1 ∧
    (specImportReplay [c5sell, c5buy] emptyState).positions = [] := by
  rw [import_c5_sell_first, spec_c5_replay]
  norm_num

/-- C5 amended: the import path merely appends the imported batch to the
stored history and applies it incrementally, in its given order, on top of
the stored positions - it neither sorts nor replays - and every closed
position it emits carries dividends 0 instead of the holding-period
dividends. -/
theorem C5_import_appends_in_order (txs : List Transaction) (s : PState) :
    (handleImportTransactions txs s).transactions = s.transactions ++ txs ∧
    (∀ cp ∈ (handleImportTransactions txs s).closedPositions,
      cp ∈ s.closedPositions ∨ cp.dividends = 0) ∧
    (handleImportTransactions [c5sell, c5buy] emptyState).closedPositions = [] ∧
    (handleImportTransactions [c5buy, c5sell] emptyState).closedPositions.length
      = 1 := by
  refine ⟨?_, ?_, ?_, ?_⟩
  · show (txs.foldl importStep
        ⟨s.transactions, s.positions, s.closedPositions⟩).allTx = _
    rw [importFold_allTx]
  · intro cp hcp
    exact importFold_closed txs ⟨s.transactions, s.positions, s.closedPositions⟩
      cp hcp
  · rw [import_c5_sell_first]
  · rw [import_c5_sorted]
    rfl

/-- First step of the rebuy scenario: the opening buy. -/
theorem c8_step1 : handleAddTransaction c8buy1 emptyState
    = ⟨[c8buy1], [⟨"ACME", "Acme", 1, 10, 10⟩], [], -10⟩ := by
  rw [show emptyState = ⟨[], [], [], 0⟩ from rfl,
      addTx_achat c8buy1 [] [] [] 0 rfl,
      purchase_none c8buy1 ([] ++ [c8buy1]) [] [] 0 rfl]
  norm_num [purchaseCost, orOne, upsertPosition, c8buy1]

/-- Second step of the rebuy scenario: the full-close sell. -/
theorem c8_step2 : handleAddTransaction c8sell1
      (⟨[c8buy1], [⟨"ACME", "Acme", 1, 10, 10⟩], [], -10⟩ : PState)
    = ⟨[c8buy1, c8sell1], [],
       [⟨"ACME", "Acme", 1, 2, 1, 10, 11, 10, 11, 1, 10, 0⟩], 1⟩ := by
  rw [addTx_vente c8sell1 [c8buy1] [⟨"ACME", "Acme", 1, 10, 10⟩] [] (-10) rfl,
      sale_ok c8sell1 ([c8buy1] ++ [c8sell1]) ([c8buy1] ++ [c8sell1])
        [⟨"ACME", "Acme", 1, 10, 10⟩] [] (-10) ⟨"ACME", "Acme", 1, 10, 10⟩ rfl
        (by norm_num [c8sell1])]
  rw [show salePurchaseDate ([c8buy1] ++ [c8sell1]) c8sell1.code c8sell1.date = 1
        from by with_unfolding_all decide]
  rw [show windowDividends ([c8buy1] ++ [c8sell1]) c8sell1.code 1 c8sell1.date = 0
        from by with_unfolding_all decide]
  norm_num [saleProceeds, orOne, dbDeletePosition, c8sell1]

/-- Third step of the rebuy scenario: the re-buy at a later date. -/
theorem c8_step3 : handleAddTransaction c8buy2
      (⟨[c8buy1, c8sell1], [],
        [⟨"ACME", "Acme", 1, 2, 1, 10, 11, 10, 11, 1, 10, 0⟩], 1⟩ : PState)
    = ⟨[c8buy1, c8sell1, c8buy2], [⟨"ACME", "Acme", 1, 20, 20⟩],
       [⟨"ACME", "Acme", 1, 2, 1, 10, 11, 10, 11, 1, 10, 0⟩], -19⟩ := by
  rw [addTx_achat c8buy2 [c8buy1, c8sell1] []
        [⟨"ACME", "Acme", 1, 2, 1, 10, 11, 10, 11, 1, 10, 0⟩] 1 rfl,
      purchase_none c8buy2 ([c8buy1, c8sell1] ++ [c8buy2]) []
        [⟨"ACME", "Acme", 1, 2, 1, 10, 11, 10, 11, 1, 10, 0⟩] 1 rfl]
  norm_num [purchaseCost, orOne, upsertPosition, c8buy2]

/-- Fourth step of the rebuy scenario: the sell after the re-buy.  Its
purchase date is the FIRST-EVER buy date 1, not the re-buy date 3. -/
theorem c8_step4 : handleAddTransaction c8sell2
      (⟨[c8buy1, c8sell1, c8buy2], [⟨"ACME", "Acme", 1, 20, 20⟩],
        [⟨"ACME", "Acme", 1, 2, 1, 10, 11, 10, 11, 1, 10, 0⟩], -19⟩ : PState)
    = ⟨[c8buy1, c8sell1, c8buy2, c8sell2], [],
       [⟨"ACME", "Acme", 1, 2, 1, 10, 11, 10, 11, 1, 10, 0⟩,
        ⟨"ACME", "Acme", 1, 4, 1, 20, 21, 20, 21, 1, 5, 0⟩], 2⟩ := by
  rw [addTx_vente c8sell2 [c8buy1, c8sell1, c8buy2]
        [⟨"ACME", "Acme", 1, 20, 20⟩]
        [⟨"ACME", "Acme", 1, 2, 1, 10, 11, 10, 11, 1, 10, 0⟩] (-19) rfl,
      sale_ok c8sell2 ([c8buy1, c8sell1, c8buy2] ++ [c8sell2])
        ([c8buy1, c8sell1, c8buy2] ++ [c8sell2])
        [⟨"ACME", "Acme", 1, 20, 20⟩]
        [⟨"ACME", "Acme", 1, 2, 1, 10, 11, 10, 11, 1, 10, 0⟩] (-19)
        ⟨"ACME", "Acme", 1, 20, 20⟩ rfl (by norm_num [c8sell2])]
  rw [show salePurchaseDate ([c8buy1, c8sell1, c8buy2] ++ [c8sell2])
        c8sell2.code c8sell2.date = 1 from by with_unfolding_all decide]
  rw [show windowDividends ([c8buy1, c8sell1, c8buy2] ++ [c8sell2])
        c8sell2.code 1 c8sell2.date = 0 from by with_unfolding_all decide]
  norm_num [saleProceeds, orOne, dbDeletePosition, c8sell2]

/-- The state reached after buy, full-close sell and re-buy. -/
theorem c8state_eq : c8state
    = ⟨[c8buy1, c8sell1, c8buy2], [⟨"ACME", "Acme", 1, 20, 20⟩],
       [⟨"ACME", "Acme", 1, 2, 1, 10, 11, 10, 11, 1, 10, 0⟩], -19⟩ := by
  show applyTransactions [c8buy1, c8sell1, c8buy2] emptyState = _
  simp only [applyTransactions, List.foldl_cons, List.foldl_nil]
  rw [c8_step1, c8_step2, c8_step3]

/-- C8 counterexample: the claim states that after a full close and a re-buy
(dated 3) a subsequent sell records the re-buy date as purchaseDate; but the
source takes the earliest buy of the code in the ENTIRE history, so both
closed positions record purchaseDate 1. -/
theorem C8_counterexample :
    ((applyTransactions [c8buy1, c8sell1, c8buy2, c8sell2]
        emptyState).closedPositions.map (fun c => c.purchaseDate)) = [1, 1] ∧
    c8buy2.date = 3 ∧ c8buy1.date = 1 := by
  have e4 : applyTransactions [c8buy1, c8sell1, c8buy2, c8sell2] emptyState
      = ⟨[c8buy1, c8sell1, c8buy2, c8sell2], [],
         [⟨"ACME", "Acme", 1, 2, 1, 10, 11, 10, 11, 1, 10, 0⟩,
          ⟨"ACME", "Acme", 1, 4, 1, 20, 21, 20, 21, 1, 5, 0⟩], 2⟩ := by
    simp only [applyTransactions, List.foldl_cons, List.foldl_nil]
    rw [c8_step1, c8_step2, c8_step3, c8_step4]
  rw [e4]
  exact ⟨by norm_num, rfl, rfl⟩

/-- The sorted buy list is a permutation of the filtered buy list. -/
theorem sortByDate_perm (l : List Transaction) :
    List.Perm (sortByDate l) l :=
  List.perm_insertionSort dateLe l

/-- The sorted buy list is sorted by date. -/
theorem sortByDate_sorted (l : List Transaction) :
    List.Sorted dateLe (sortByDate l) :=
  List.sorted_insertionSort dateLe l

/-- C8 amended: the purchaseDate a sale records is the date of the earliest
buy of that exact code anywhere in the full history - including buys whose
units were already fully closed out - not the earliest buy still open. -/
theorem C8_purchaseDate_first_ever (tx : Transaction) (txs : List Transaction)
    (s : PState) (ex : Position)
    (hfind : s.positions.find? (fun p => p.code == tx.code) = some ex)
    (hq : ¬ ex.quantity < tx.quantity)
    (b : Transaction) (hbmem : b ∈ txs) (hbty : b.type = TxType.achat)
    (hbcode : b.code = tx.code) :
    ∃ cp : ClosedPosition,
      (handleSale tx txs s).closedPositions = s.closedPositions ++ [cp] ∧
      (∃ t0 ∈ txs, t0.type = TxType.achat ∧ t0.code = tx.code ∧
        cp.purchaseDate = t0.date) ∧
      (∀ u ∈ txs, u.type = TxType.achat → u.code = tx.code →
        cp.purchaseDate ≤ u.date) := by
  have hbmem' : b ∈ txs.filter
      (fun t => t.code == tx.code && t.type == TxType.achat) := by
    simp [List.mem_filter, hbmem, hbty, hbcode]
  obtain ⟨t0, rest, hsorteq⟩ : ∃ t0 rest,
      sortByDate (txs.filter
        (fun t => t.code == tx.code && t.type == TxType.achat)) = t0 :: rest := by
    rcases hsd : sortByDate (txs.filter
        (fun t => t.code == tx.code && t.type == TxType.achat)) with _ | ⟨t0, rest⟩
    · exfalso
      have hperm := sortByDate_perm (txs.filter
        (fun t => t.code == tx.code && t.type == TxType.achat))
      rw [hsd] at hperm
      rw [hperm.symm.eq_nil] at hbmem'
      exact (List.not_mem_nil b) hbmem'
    · exact ⟨t0, rest, rfl⟩
  have ht0mem : t0 ∈ txs.filter
      (fun t => t.code == tx.code && t.type == TxType.achat) := by
    have ht : t0 ∈ sortByDate (txs.filter
        (fun t => t.code == tx.code && t.type == TxType.achat)) := by
      rw [hsorteq]
      exact List.mem_cons_self t0 rest
    exact (sortByDate_perm _).mem_iff.mp ht
  have ht0min : ∀ u ∈ txs.filter
      (fun t => t.code == tx.code && t.type == TxType.achat),
      t0.date ≤ u.date := by
    intro u hu
    have hu' : u ∈ t0 :: rest := by
      rw [← hsorteq]
      exact (sortByDate_perm _).symm.mem_iff.mp hu
    have hs0 : List.Sorted dateLe (sortByDate (txs.filter
        (fun t => t.code == tx.code && t.type == TxType.achat))) :=
      sortByDate_sorted _
    rw [hsorteq] at hs0
    rcases List.mem_cons.mp hu' with h | h
    · rw [h]
    · exact List.rel_of_sorted_cons hs0 u h
  have hpd : salePurchaseDate txs tx.code tx.date = t0.date := by
    unfold salePurchaseDate
    rw [hsorteq]
    rfl
  rw [handleSale_ok tx txs s ex hfind hq]
  refine ⟨_, rfl, ?_, ?_⟩
  · obtain ⟨ht0txs, ht0p⟩ := List.mem_filter.mp ht0mem
    have ht0p' : t0.code = tx.code ∧ t0.type = TxType.achat := by
      simpa using ht0p
    exact ⟨t0, ht0txs, ht0p'.2, ht0p'.1, by simpa using hpd⟩
  · intro u hu huty hucode
    have hu' : u ∈ txs.filter
        (fun t => t.code == tx.code && t.type == TxType.achat) := by
      simp [List.mem_filter, hu, huty, hucode]
    have := ht0min u hu'
    simpa [hpd] using this

/-- Witness for C8 at the rebuy scenario's final sell: the emitted closed
position's purchaseDate equals the date of some buy of the code and is the
minimum over all buy dates of the code in the history. -/
theorem C8_purchaseDate_first_ever_witness :
    ∃ cp : ClosedPosition,
      (handleSale c8sell2 [c8buy1, c8sell1, c8buy2, c8sell2]
          c8state).closedPositions = c8state.closedPositions ++ [cp] ∧
      (∃ t0 ∈ [c8buy1, c8sell1, c8buy2, c8sell2], t0.type = TxType.achat ∧
        t0.code = c8sell2.code ∧ cp.purchaseDate = t0.date) ∧
      (∀ u ∈ [c8buy1, c8sell1, c8buy2, c8sell2], u.type = TxType.achat →
        u.code = c8sell2.code → cp.purchaseDate ≤ u.date) :=
  C8_purchaseDate_first_ever c8sell2 [c8buy1, c8sell1, c8buy2, c8sell2]
    c8state ⟨"ACME", "Acme", 1, 20, 20⟩
    (by rw [c8state_eq]; rfl) (by norm_num [c8sell2])
    c8buy1 (by simp) rfl rfl

/-- C4 amended: the incremental path charges fees and tff unconverted while
the delete-replay multiplies them by the raw conversion rate; the two paths
store the same position for the same buy exactly when the conversion rate
is 1. -/
theorem C4_paths_agree_at_rate_one (tx : Transaction) (did : Nat)
    (hty : tx.type = TxType.achat) (hrate : tx.conversionRate = 1)
    (hid : tx.id ≠ did) :
    (handleAddTransaction tx emptyState).positions
      = (handleDeleteTransaction did ⟨[tx], [], [], 0⟩).positions := by
  have hid1 : (tx.id != did) = true := by simpa using hid
  rw [show emptyState = ⟨[], [], [], 0⟩ from rfl,
      addTx_achat tx [] [] [] 0 hty,
      purchase_none tx ([] ++ [tx]) [] [] 0 rfl,
      deleteTx_eq]
  have hfil : [tx].filter (fun t => t.id != did) = [tx] := by
    simp [List.filter, hid1]
  rw [hfil]
  have hfil2 : [tx].filter
      (fun t => t.type == TxType.achat || t.type == TxType.vente) = [tx] := by
    simp [List.filter, hty]
  rw [hfil2]
  rw [show sortByDate [tx] = [tx] from rfl]
  simp only [List.foldl_cons, List.foldl_nil]
  rw [replayStep_achat_none [tx] ⟨[], []⟩ tx hty rfl]
  norm_num [upsertPosition, purchaseCost, replayBuyCost, orOne, hrate]

/-- Witness for C4 at a rate-1 buy with nonzero fees and tff: both paths
store the same position. -/
theorem C4_paths_agree_at_rate_one_witness :
    (handleAddTransaction c4buyRate1 emptyState).positions
      = (handleDeleteTransaction 99 ⟨[c4buyRate1], [], [], 0⟩).positions :=
  C4_paths_agree_at_rate_one c4buyRate1 99 rfl rfl (by with_unfolding_all decide)

/-- Upsert appends when no stored row carries the new row's exact code. -/
theorem upsertPosition_append (ps : List Position) (p : Position)
    (h : ∀ q ∈ ps, q.code ≠ p.code) : upsertPosition ps p = ps ++ [p] := by
  have hany : ps.any (fun q => q.code == p.code) = false := by
    rw [List.any_eq_false]
    intro q hq
    simpa using h q hq
  simp [upsertPosition, hany]

/-- Upsert overwrites in place when some stored row carries the new row's
exact code. -/
theorem upsertPosition_replace (ps : List Position) (p : Position)
    (q0 : Position) (hq0 : q0 ∈ ps) (hcode : q0.code = p.code) :
    upsertPosition ps p = ps.map (fun q => if q.code == p.code then p else q) := by
  have hany : ps.any (fun q => q.code == p.code) = true := by
    rw [List.any_eq_true]
    exact ⟨q0, hq0, by simp [hcode]⟩
  simp [upsertPosition, hany]

/-- One buy through the add-transaction path preserves the buys-only
invariant, extending the processed list by that buy. -/
theorem buys_step (tx : Transaction) (done : List Transaction) (s : PState)
    (hty : tx.type = TxType.achat) (hnorm : normCode tx.code = tx.code)
    (hrate : tx.conversionRate ≠ 0)
    (hinv : BuysInvariant done s.positions) :
    BuysInvariant (done ++ [tx]) (handleAddTransaction tx s).positions := by
  obtain ⟨inorm, ipru, isum, iabs⟩ := hinv
  have hcost : purchaseCost tx = buyCostSpec tx := by
    simp [purchaseCost, buyCostSpec, orOne, hrate]
  rw [handleAddTransaction_achat tx s hty]
  rcases hf : s.positions.find? (fun p => normCode p.code == normCode tx.code)
    with _ | ex
  · have habs : ∀ p ∈ s.positions, p.code ≠ tx.code := by
      intro p hp hc
      have h := List.find?_eq_none.mp hf p hp
      apply h
      simp [hc]
    rw [handlePurchase_none tx
        ⟨s.transactions ++ [tx], s.positions, s.closedPositions, s.cash⟩ hf]
    dsimp only
    rw [upsertPosition_append s.positions
        ⟨tx.code, tx.name, tx.quantity, purchaseCost tx,
         purchaseCost tx / tx.quantity⟩ habs]
    refine ⟨?_, ?_, ?_, ?_⟩
    · intro p hp
      rcases List.mem_append.mp hp with h | h
      · exact inorm p h
      · rw [List.mem_singleton.mp h]
        exact hnorm
    · intro p hp
      rcases List.mem_append.mp hp with h | h
      · exact ipru p h
      · rw [List.mem_singleton.mp h]
    · intro p hp
      rcases List.mem_append.mp hp with h | h
      · have hne : (tx.code == p.code) = false := by
          simpa using Ne.symm (habs p h)
        rw [List.filter_append]
        simp [List.filter, hne, isum p h]
      · rw [List.mem_singleton.mp h]
        have h0 : done.filter (fun t => t.code == tx.code) = [] :=
          iabs tx.code habs
        rw [List.filter_append]
        simp [List.filter, h0, hcost]
    · intro c hc
      have hc1 : ∀ p ∈ s.positions, p.code ≠ c := fun p hp =>
        hc p (List.mem_append_left _ hp)
      have hc2 : tx.code ≠ c := by
        have := hc ⟨tx.code, tx.name, tx.quantity, purchaseCost tx,
          purchaseCost tx / tx.quantity⟩ (List.mem_append_right _ (by simp))
        simpa using this
      have hne : (tx.code == c) = false := by simpa using hc2
      rw [List.filter_append, iabs c hc1]
      simp [List.filter, hne]
  · have hexmem : ex ∈ s.positions := List.mem_of_find?_eq_some hf
    have hexpred := List.find?_some hf
    have hexcode : ex.code = tx.code := by
      have h1 : normCode ex.code = normCode tx.code := by simpa using hexpred
      rw [inorm ex hexmem, hnorm] at h1
      exact h1
    rw [handlePurchase_some tx
        ⟨s.transactions ++ [tx], s.positions, s.closedPositions, s.cash⟩ ex hf]
    dsimp only
    rw [upsertPosition_replace s.positions
        ⟨tx.code, tx.name, ex.quantity + tx.quantity,
         ex.totalCost + purchaseCost tx,
         (ex.totalCost + purchaseCost tx) / (ex.quantity + tx.quantity)⟩
        ex hexmem hexcode]
    have hmemnew : (⟨tx.code, tx.name, ex.quantity + tx.quantity,
        ex.totalCost + purchaseCost tx,
        (ex.totalCost + purchaseCost tx) / (ex.quantity + tx.quantity)⟩ : Position)
        ∈ s.positions.map (fun q =>
          if q.code == tx.code then
            ⟨tx.code, tx.name, ex.quantity + tx.quantity,
             ex.totalCost + purchaseCost tx,
             (ex.totalCost + purchaseCost tx) / (ex.quantity + tx.quantity)⟩
          else q) := by
      refine List.mem_map.mpr ⟨ex, hexmem, ?_⟩
      simp [hexcode]
    refine ⟨?_, ?_, ?_, ?_⟩
    · intro p hp
      obtain ⟨q, hq, hφ⟩ := List.mem_map.mp hp
      by_cases hqc : q.code = tx.code
      · rw [← hφ]
        simp only [hqc, beq_self_eq_true, if_true]
        exact hnorm
      · rw [← hφ]
        have : (q.code == tx.code) = false := by simpa using hqc
        simp only [this, Bool.false_eq_true, if_false]
        exact inorm q hq
    · intro p hp
      obtain ⟨q, hq, hφ⟩ := List.mem_map.mp hp
      by_cases hqc : q.code = tx.code
      · rw [← hφ]
        simp only [hqc, beq_self_eq_true, if_true]
      · rw [← hφ]
        have : (q.code == tx.code) = false := by simpa using hqc
        simp only [this, Bool.false_eq_true, if_false]
        exact ipru q hq
    · intro p hp
      obtain ⟨q, hq, hφ⟩ := List.mem_map.mp hp
      by_cases hqc : q.code = tx.code
      · rw [← hφ]
        simp only [hqc, beq_self_eq_true, if_true]
        have hsum := isum ex hexmem
        rw [hexcode] at hsum
        rw [List.filter_append]
        simp [List.filter, hsum, hcost]
      · rw [← hφ]
        have hqf : (q.code == tx.code) = false := by simpa using hqc
        simp only [hqf, Bool.false_eq_true, if_false]
        have hne : (tx.code == q.code) = false := by
          simpa using Ne.symm hqc
        rw [List.filter_append]
        simp [List.filter, hne, isum q hq]
    · intro c hc
      have hc2 : tx.code ≠ c := by
        have := hc _ hmemnew
        simpa using this
      have hc1 : ∀ q ∈ s.positions, q.code ≠ c := by
        intro q hq
        by_cases hqc : q.code = tx.code
        · rw [hqc]
          exact hc2
        · have hqf : (q.code == tx.code) = false := by simpa using hqc
          have hmem : q ∈ s.positions.map (fun q =>
              if q.code == tx.code then
                ⟨tx.code, tx.name, ex.quantity + tx.quantity,
                 ex.totalCost + purchaseCost tx,
                 (ex.totalCost + purchaseCost tx) / (ex.quantity + tx.quantity)⟩
              else q) := by
            refine List.mem_map.mpr ⟨q, hq, ?_⟩
            simp [hqf]
          exact hc q hmem
      have hne : (tx.code == c) = false := by simpa using hc2
      rw [List.filter_append, iabs c hc1]
      simp [List.filter, hne]

/-- Folding buys through the add-transaction path preserves the buys-only
invariant. -/
theorem buys_fold (txs : List Transaction) : ∀ (done : List Transaction)
    (s : PState),
    (∀ t ∈ txs, t.type = TxType.achat ∧ normCode t.code = t.code ∧
      t.conversionRate ≠ 0) →
    BuysInvariant done s.positions →
    BuysInvariant (done ++ txs) (applyTransactions txs s).positions := by
  induction txs with
  | nil =>
      intro done s _ hinv
      simpa [applyTransactions] using hinv
  | cons t ts ih =>
      intro done s hall hinv
      obtain ⟨ht1, ht2, ht3⟩ := hall t (List.mem_cons_self t ts)
      have h1 := buys_step t done s ht1 ht2 ht3 hinv
      have h2 := ih (done ++ [t]) (handleAddTransaction t s)
        (fun u hu => hall u (List.mem_cons_of_mem t hu)) h1
      have he : applyTransactions (t :: ts) s
          = applyTransactions ts (handleAddTransaction t s) := rfl
      rw [he]
      simpa [List.append_assoc] using h2

/-- C1: for any sequence of buys only - with codes already normalised as the
data model requires and nonzero conversion rates - applied from the empty
state, every resulting position satisfies pru = totalCost / quantity exactly
and accumulates exactly the sum of quantity * (unitPrice * conversionRate) +
fees + tff over the buys bearing its code. -/
theorem C1_buys_weighted_average (txs : List Transaction)
    (h : ∀ t ∈ txs, t.type = TxType.achat ∧ normCode t.code = t.code ∧
      t.conversionRate ≠ 0) :
    ∀ p ∈ (applyTransactions txs emptyState).positions,
      p.pru = p.totalCost / p.quantity ∧
      p.totalCost
        = ((txs.filter (fun t => t.code == p.code)).map buyCostSpec).sum := by
  have hinv0 : BuysInvariant [] emptyState.positions :=
    ⟨by simp [emptyState], by simp [emptyState], by simp [emptyState],
     fun c _ => by simp⟩
  have h2 := buys_fold txs [] emptyState h hinv0
  rw [List.nil_append] at h2
  obtain ⟨_, ipru, isum, _⟩ := h2
  intro p hp
  exact ⟨ipru p hp, isum p hp⟩

/-- The state after the first witness buy of claim C1. -/
theorem c1_step1 : handleAddTransaction c1buy1 emptyState
    = ⟨[c1buy1], [⟨"ACME", "Acme", 2, 42, 21⟩], [], -42⟩ := by
  rw [show emptyState = ⟨[], [], [], 0⟩ from rfl,
      addTx_achat c1buy1 [] [] [] 0 rfl,
      purchase_none c1buy1 ([] ++ [c1buy1]) [] [] 0 rfl]
  norm_num [purchaseCost, orOne, upsertPosition, c1buy1]

/-- The state after both witness buys of claim C1. -/
theorem c1_step2 : handleAddTransaction c1buy2
      (⟨[c1buy1], [⟨"ACME", "Acme", 2, 42, 21⟩], [], -42⟩ : PState)
    = ⟨[c1buy1, c1buy2], [⟨"ACME", "Acme", 5, 79, 79/5⟩], [], -79⟩ := by
  rw [addTx_achat c1buy2 [c1buy1] [⟨"ACME", "Acme", 2, 42, 21⟩] [] (-42) rfl,
      purchase_some c1buy2 ([c1buy1] ++ [c1buy2]) [⟨"ACME", "Acme", 2, 42, 21⟩]
        [] (-42) ⟨"ACME", "Acme", 2, 42, 21⟩ (by with_unfolding_all decide)]
  norm_num [purchaseCost, orOne, upsertPosition, c1buy2]

/-- The full two-buy witness pipeline of claim C1. -/
theorem c1_pipeline : applyTransactions [c1buy1, c1buy2] emptyState
    = ⟨[c1buy1, c1buy2], [⟨"ACME", "Acme", 5, 79, 79/5⟩], [], -79⟩ := by
  simp only [applyTransactions, List.foldl_cons, List.foldl_nil]
  rw [c1_step1, c1_step2]

/-- Witness for C1 at two concrete buys of the same code with different
prices, fees and rates: the stored position satisfies both equations. -/
theorem C1_buys_weighted_average_witness :
    (⟨"ACME", "Acme", 5, 79, 79/5⟩ : Position).pru
      = (⟨"ACME", "Acme", 5, 79, 79/5⟩ : Position).totalCost
        / (⟨"ACME", "Acme", 5, 79, 79/5⟩ : Position).quantity ∧
    (⟨"ACME", "Acme", 5, 79, 79/5⟩ : Position).totalCost
      = (([c1buy1, c1buy2].filter
          (fun t => t.code == (⟨"ACME", "Acme", 5, 79, 79/5⟩ : Position).code)).map
            buyCostSpec).sum :=
  C1_buys_weighted_average [c1buy1, c1buy2] (by with_unfolding_all decide)
    ⟨"ACME", "Acme", 5, 79, 79/5⟩ (by rw [c1_pipeline]; simp)

end Portefeuille
